import Mathlib

/-!
Verification of the ZAR card-game engine (`src/server/gameLogic.ts`,
`src/server/deck.ts`, `src/server/types.ts`) via a shallow embedding.

The TypeScript source is translated function by function.  `shuffle`
(Fisher-Yates over `Math.random`) is the one nondeterministic primitive;
it is modelled as an explicit function parameter `shuffle : List Card →
List Card`, assumed length-preserving where a theorem needs it (the real
Fisher-Yates returns a permutation, hence preserves length).
-/

namespace Zar

/-- `CardColor` from `types.ts`. -/
inductive CardColor
  | yellow | blue | red
deriving DecidableEq, Repr

/-- `CardSymbol` from `types.ts`. -/
inductive CardSymbol
  | galaxy | moon | cloud | sun | star | lightning
deriving DecidableEq, Repr

/-- `CommandKind` from `types.ts`. -/
inductive CommandKind
  | wasp | frog | crab
deriving DecidableEq, Repr

/-- `PowerKind` from `types.ts`. -/
inductive PowerKind
  | dragon | peacock
deriving DecidableEq, Repr

/-- `CardKind` from `types.ts`. -/
inductive CardKind
  | basic | command | power
deriving DecidableEq, Repr

/-- `Card` from `types.ts`: optional fields become `Option`. -/
structure Card where
  id : String
  kind : CardKind
  color : Option CardColor
  symbol : Option CardSymbol
  command : Option CommandKind
  power : Option PowerKind
  pair : Option Nat
  points : Nat
deriving DecidableEq, Repr

/-- Stand-in for the out-of-range value of a JS indexed access; theorems
only use it under in-bounds hypotheses. -/
def cardDefault : Card :=
  { id := "", kind := .basic, color := none, symbol := none,
    command := none, power := none, pair := none, points := 0 }

/-- `Player` from `types.ts`. -/
structure Player where
  id : String
  name : String
  hand : List Card
  score : Nat
  connected : Bool
  announcedLastCard : Bool
deriving DecidableEq, Repr

def playerDefault : Player :=
  { id := "", name := "", hand := [], score := 0, connected := true,
    announcedLastCard := false }

/-- `Direction` from `types.ts`. -/
inductive Direction
  | cw | ccw
deriving DecidableEq, Repr

/-- `GamePhase` from `types.ts`. -/
inductive GamePhase
  | lobby | playing | round_over | game_over
deriving DecidableEq, Repr

/-- `GameState` from `types.ts`. -/
structure GameState where
  phase : GamePhase
  players : List Player
  drawPile : List Card
  playPile : List Card
  currentPlayerIndex : Nat
  direction : Direction
  pendingDrawCount : Nat
  skipsRemaining : Nat
  declaredSymbol : Option CardSymbol
  declaredColor : Option CardColor
  waitingForDeclaration : Bool
  targetScore : Nat
  roundWinnerId : Option String
  matchWindowOpen : Bool
deriving DecidableEq, Repr

/-- `canPlay` from `gameLogic.ts` lines 6-41, translated branch by branch.
The redundant second color check of line 38 is absorbed by the disjunction. -/
def canPlay (card : Card) (s : GameState) : Bool :=
  match s.playPile.getLast? with
  | none => true
  | some top =>
    if 0 < s.pendingDrawCount then
      decide (card.kind = .command ∧ card.command = some .wasp)
    else if card.kind = .power ∧ card.power = some .dragon then
      decide (top.kind ≠ .power ∨ top.power = some .dragon)
    else if card.kind = .power ∧ card.power = some .peacock then
      decide (top.kind ≠ .power ∨ top.power = some .peacock)
    else if s.declaredSymbol.isSome ∧ s.declaredColor.isNone then
      if card.kind = .power ∧ card.power = some .dragon then true
      else decide (card.symbol = s.declaredSymbol)
    else if s.declaredColor.isSome ∧ s.declaredSymbol.isNone then
      if card.kind = .power ∧ card.power = some .peacock then true
      else decide (card.color = s.declaredColor)
    else
      decide ((card.color.isSome ∧ top.color.isSome ∧ card.color = top.color)
        ∨ (card.symbol.isSome ∧ top.symbol.isSome ∧ card.symbol = top.symbol)
        ∨ (card.command.isSome ∧ top.command.isSome ∧ card.command = top.command))

/-- `isMatch` from `gameLogic.ts` lines 45-56. -/
def isMatch (a b : Card) : Bool :=
  if a.kind = .power ∧ b.kind = .power then
    decide (a.power = b.power ∧ a.pair = b.pair)
  else if a.kind ≠ .power ∧ b.kind ≠ .power then
    if a.color ≠ b.color then false
    else if a.symbol.isSome ∧ b.symbol.isSome then decide (a.symbol = b.symbol)
    else if a.command.isSome ∧ b.command.isSome then decide (a.command = b.command)
    else false
  else false

/-- `isDouble` from `gameLogic.ts` lines 58-60. -/
def isDouble (card1 card2 : Card) : Bool := isMatch card1 card2

/-- `calcHandScore` from `deck.ts`: sum of `points` over the hand. -/
def calcHandScore (hand : List Card) : Nat := (hand.map Card.points).sum

/-- Hand-size formula from `startRound` (`gameLogic.ts` line 67). -/
def handSizeFor (numPlayers : Nat) : Nat := max 3 (min 7 (10 - numPlayers))

/-- The round-robin deal of `startRound` lines 71-76: player `j` receives
the deck entries at positions `i * numPlayers + j` for `i < handSize`. -/
def dealHand (deck : List Card) (numPlayers handSize j : Nat) : List Card :=
  (List.range handSize).map (fun i => deck.getD (i * numPlayers + j) cardDefault)

/-- The `while` loop of `startRound` lines 79-80 searching for the first
non-power card, with explicit fuel (`deck.length - i` at the entry point). -/
def findNonPowerIdxAux (deck : List Card) : Nat → Nat → Nat
  | 0, i => i
  | fuel + 1, i =>
    if i < deck.length then
      if (deck.getD i cardDefault).kind = CardKind.power then
        findNonPowerIdxAux deck fuel (i + 1)
      else i
    else i

def findNonPowerIdx (deck : List Card) (i : Nat) : Nat :=
  findNonPowerIdxAux deck (deck.length - i) i

/-- `startRound` from `gameLogic.ts` lines 64-105, parameterized by the
already-shuffled deck produced by `buildDeck()`. -/
def startRound (deck : List Card) (s : GameState) : GameState :=
  let numPlayers := s.players.length
  let handSize := handSizeFor numPlayers
  let idx := handSize * numPlayers
  let players := s.players.enum.map (fun jp =>
    { jp.2 with
        hand := dealHand deck numPlayers handSize jp.1
        announcedLastCard := false })
  let t := findNonPowerIdx deck idx
  let topIdx := if t = deck.length then idx else t
  { s with
    phase := .playing
    players := players
    drawPile := (deck.drop idx).take (topIdx - idx) ++ deck.drop (topIdx + 1)
    playPile := [deck.getD topIdx cardDefault]
    currentPlayerIndex := 0
    direction := .cw
    pendingDrawCount := 0
    skipsRemaining := 0
    declaredSymbol := none
    declaredColor := none
    waitingForDeclaration := false
    roundWinnerId := none
    matchWindowOpen := false }

/-- One step of the loop in `advanceTurn` (`gameLogic.ts` lines 159-163). -/
def stepIdx (dir : Direction) (n idx : Nat) : Nat :=
  match dir with
  | .cw => (idx + 1) % n
  | .ccw => (idx + n - 1) % n

/-- The `for` loop of `advanceTurn`, iterated `steps` times. -/
def advanceIdx (dir : Direction) (n : Nat) : Nat → Nat → Nat
  | 0, idx => idx
  | k + 1, idx => advanceIdx dir n k (stepIdx dir n idx)

/-- `advanceTurn` from `gameLogic.ts` lines 156-165. -/
def advanceTurn (s : GameState) (steps : Nat := 1) : GameState :=
  { s with currentPlayerIndex :=
      advanceIdx s.direction s.players.length steps s.currentPlayerIndex }

/-- `placeCard` from `gameLogic.ts` lines 146-153. -/
def placeCard (s : GameState) (card : Card) : GameState :=
  { s with playPile := s.playPile ++ [card],
           declaredSymbol := none, declaredColor := none }

def flipDir : Direction → Direction
  | .cw => .ccw
  | .ccw => .cw

/-- `applyPlay` from `gameLogic.ts` lines 168-197. -/
def applyPlay (s : GameState) (_playerId : String) (card : Card) : GameState :=
  let s := placeCard s card
  match card.kind with
  | .basic => advanceTurn s 1
  | .command =>
    if card.command = some .wasp then
      advanceTurn { s with pendingDrawCount := s.pendingDrawCount + 2 } 1
    else if card.command = some .frog then advanceTurn s 2
    else if card.command = some .crab then
      advanceTurn { s with direction := flipDir s.direction } 1
    else s
  | .power => { s with waitingForDeclaration := true }

/-- `applyDouble` from `gameLogic.ts` lines 200-223. -/
def applyDouble (s : GameState) (_playerId : String) (card1 card2 : Card) :
    GameState :=
  let s := placeCard (placeCard s card1) card2
  match card2.kind with
  | .command =>
    if card2.command = some .wasp then
      advanceTurn { s with pendingDrawCount := s.pendingDrawCount + 4 } 1
    else if card2.command = some .frog then advanceTurn s 3
    else if card2.command = some .crab then advanceTurn s 1
    else s
  | .power => { s with waitingForDeclaration := true }
  | .basic => advanceTurn s 1

/-- `applyDragonDeclaration` from `gameLogic.ts` lines 226-233. -/
def applyDragonDeclaration (s : GameState) (symbol : CardSymbol) : GameState :=
  advanceTurn { s with declaredSymbol := some symbol, declaredColor := none,
                       waitingForDeclaration := false } 1

/-- `applyPeacockDeclaration` from `gameLogic.ts` lines 236-243. -/
def applyPeacockDeclaration (s : GameState) (color : CardColor) : GameState :=
  advanceTurn { s with declaredColor := some color, declaredSymbol := none,
                       waitingForDeclaration := false } 1

/-- The body of the draw loop of `drawCards` (`gameLogic.ts` lines 117-126):
takes the remaining count, the draw pile, the play pile and the cards drawn
so far; returns the final draw pile, play pile and drawn cards. -/
def drawLoop (shuffle : List Card → List Card) :
    Nat → List Card → List Card → List Card →
    List Card × List Card × List Card
  | 0, drawPile, playPile, acc => (drawPile, playPile, acc)
  | k + 1, drawPile, playPile, acc =>
    let rep :=
      if drawPile.isEmpty then
        match playPile.getLast? with
        | some top => (shuffle playPile.dropLast, [top])
        | none => (shuffle playPile.dropLast, ([] : List Card))
      else (drawPile, playPile)
    match rep with
    | (dp, pp) =>
      match dp with
      | [] => ([], pp, acc)
      | c :: rest => drawLoop shuffle k rest pp (acc ++ [c])

/-- The `player.hand.push(...)` mutation of `drawCards`: append the drawn
cards to the hand of the first player with the given id. -/
def giveToFirst (playerId : String) (drawn : List Card) :
    List Player → List Player
  | [] => []
  | p :: ps =>
    if p.id = playerId then { p with hand := p.hand ++ drawn } :: ps
    else p :: giveToFirst playerId drawn ps

/-- `drawCards` from `gameLogic.ts` lines 110-129. -/
def drawCards (shuffle : List Card → List Card) (s : GameState)
    (playerId : String) (count : Nat) : GameState :=
  match s.players.find? (fun p => decide (p.id = playerId)) with
  | none => s
  | some _ =>
    match drawLoop shuffle count s.drawPile s.playPile [] with
    | (dp, pp, drawn) =>
      { s with players := giveToFirst playerId drawn s.players,
               drawPile := dp, playPile := pp }

/-- The `hand.splice(idx, 1)` removal of `removeFromHand`: drop the first
card with the given id, if any. -/
def eraseFirstById (cardId : String) : List Card → List Card
  | [] => []
  | c :: cs => if c.id = cardId then cs else c :: eraseFirstById cardId cs

/-- `removeFromHand` from `gameLogic.ts` lines 132-143. -/
def removeFromHand (s : GameState) (playerId cardId : String) :
    GameState × Option Card :=
  let players := s.players.map (fun p =>
    if p.id = playerId then { p with hand := eraseFirstById cardId p.hand }
    else p)
  let card := (s.players.find? (fun p => decide (p.id = playerId))).bind
    (fun p => p.hand.find? (fun c => decide (c.id = cardId)))
  ({ s with players := players }, card)

/-- `checkRoundOver` from `gameLogic.ts` lines 247-265. -/
def checkRoundOver (s : GameState) : GameState :=
  match s.players.find? (fun p => p.hand.isEmpty) with
  | none => s
  | some winner =>
    let players := s.players.map (fun p =>
      { p with score := p.score +
          (if p.id = winner.id then 0 else calcHandScore p.hand) })
    let gameOver := players.any (fun p => decide (s.targetScore ≤ p.score))
    { s with players := players,
             phase := if gameOver then .game_over else .round_over,
             roundWinnerId := some winner.id }

/-- The `match_card` handler from `gameLogic.ts` lines 574-607, reduced to
its state transformation: `none` models an early return with an error. -/
def matchCard (shuffle : List Card → List Card) (s : GameState)
    (matcherId cardId : String) : Option GameState :=
  match s.players.find? (fun p => decide (p.id = matcherId)) with
  | none => none
  | some matcher =>
    if s.matchWindowOpen = false then none
    else if (s.players.getD s.currentPlayerIndex playerDefault).id = matcherId
    then none
    else
      match s.playPile.getLast?,
            matcher.hand.find? (fun c => decide (c.id = cardId)) with
      | some top, some cardInHand =>
        if isMatch cardInHand top = false then none
        else
          let matchedPlayer := s.players.getD s.currentPlayerIndex playerDefault
          let s1 := drawCards shuffle s matchedPlayer.id 1
          match removeFromHand s1 matcherId cardId with
          | (_, none) => none
          | (s2, some card) =>
            let matcherIndex :=
              s2.players.findIdx (fun p => decide (p.id = matcherId))
            let s3 := { s2 with playPile := s2.playPile ++ [card],
                                currentPlayerIndex := matcherIndex,
                                matchWindowOpen := false }
            some (checkRoundOver (advanceTurn s3 1))
      | _, _ => none

/-- The `play_card` handler's engine calls (`gameLogic.ts` lines 458-460):
remove the card, then `applyPlay`; a missing card is a no-op. -/
def playCardOp (s : GameState) (playerId cardId : String) : GameState :=
  match removeFromHand s playerId cardId with
  | (s', some card) => applyPlay s' playerId card
  | (_, none) => s

/-- The `play_double` handler's engine calls (`gameLogic.ts` lines 497-501):
remove both cards, then `applyDouble`; any missing card is a no-op. -/
def playDoubleOp (s : GameState) (playerId cardId1 cardId2 : String) :
    GameState :=
  match removeFromHand s playerId cardId1 with
  | (s2, some card1) =>
    match removeFromHand s2 playerId cardId2 with
    | (s3, some card2) => applyDouble s3 playerId card1 card2
    | (_, none) => s
  | (_, none) => s

/-- Total number of cards held in hands. -/
def sumHands (ps : List Player) : Nat :=
  (ps.map (fun p => p.hand.length)).sum

/-- Total number of cards in play: hands plus draw pile plus discard pile. -/
def cardCount (s : GameState) : Nat :=
  sumHands s.players + s.drawPile.length + s.playPile.length

/-- One engine operation, as invoked by the server handlers. -/
inductive Step (shuffle : List Card → List Card) : GameState → GameState → Prop
  | play (s : GameState) (pid cid : String) : Step shuffle s (playCardOp s pid cid)
  | double (s : GameState) (pid cid1 cid2 : String) :
      Step shuffle s (playDoubleOp s pid cid1 cid2)
  | draw (s : GameState) (pid : String) (count : Nat) :
      Step shuffle s (drawCards shuffle s pid count)
  | dragon (s : GameState) (symbol : CardSymbol) :
      Step shuffle s (applyDragonDeclaration s symbol)
  | peacock (s : GameState) (color : CardColor) :
      Step shuffle s (applyPeacockDeclaration s color)
  | advance (s : GameState) (k : Nat) : Step shuffle s (advanceTurn s k)

/-- Reachability by engine operations. -/
def Reachable (shuffle : List Card → List Card) : GameState → GameState → Prop :=
  Relation.ReflTransGen (Step shuffle)

/-- Deck constants from `deck.ts`. -/
def COLORS : List CardColor := [.yellow, .blue, .red]
def SYMBOLS : List CardSymbol := [.galaxy, .moon, .cloud, .sun, .star, .lightning]
def COMMANDS : List CommandKind := [.wasp, .frog, .crab]

/-- The 36 basic cards of `buildDeck` (ids assigned afterwards). -/
def basicCardsNoId : List Card :=
  SYMBOLS.flatMap (fun sy => COLORS.flatMap (fun c =>
    List.replicate 2
      { id := "", kind := .basic, color := some c, symbol := some sy,
        command := none, power := none, pair := none, points := 5 }))

/-- The 18 command cards of `buildDeck`. -/
def commandCardsNoId : List Card :=
  COMMANDS.flatMap (fun cmd => COLORS.flatMap (fun c =>
    List.replicate 2
      { id := "", kind := .command, color := some c, symbol := none,
        command := some cmd, power := none, pair := none, points := 15 }))

/-- The 8 power cards of `buildDeck`. -/
def powerCardsNoId : List Card :=
  [PowerKind.dragon, PowerKind.peacock].flatMap (fun pw =>
    [1, 2].flatMap (fun pr =>
      List.replicate 2
        { id := "", kind := .power, color := none, symbol := none,
          command := none, power := some pw, pair := some pr, points := 25 }))

/-- `buildDeck` from `deck.ts` before the final shuffle: the 62-card
composition in source order with sequential string ids. -/
def buildDeckOrdered : List Card :=
  (basicCardsNoId ++ commandCardsNoId ++ powerCardsNoId).enum.map
    (fun ic => { ic.2 with id := toString (ic.1 + 1) })

/-- `buildDeck` from `deck.ts`: the ordered composition, shuffled. -/
def buildDeck (shuffle : List Card → List Card) : List Card :=
  shuffle buildDeckOrdered

/-! Concrete fixtures used by witnesses and counterexamples. -/

def mkBasic (id : String) (color : CardColor) (symbol : CardSymbol) : Card :=
  { id := id, kind := .basic, color := some color, symbol := some symbol,
    command := none, power := none, pair := none, points := 5 }

def mkCommand (id : String) (color : CardColor) (cmd : CommandKind) : Card :=
  { id := id, kind := .command, color := some color, symbol := none,
    command := some cmd, power := none, pair := none, points := 15 }

def mkPower (id : String) (pw : PowerKind) (pr : Nat) : Card :=
  { id := id, kind := .power, color := none, symbol := none,
    command := none, power := some pw, pair := some pr, points := 25 }

def basePlayer (id : String) : Player :=
  { id := id, name := id, hand := [], score := 0, connected := true,
    announcedLastCard := false }

def baseState : GameState :=
  { phase := .playing, players := [], drawPile := [], playPile := [],
    currentPlayerIndex := 0, direction := .cw, pendingDrawCount := 0,
    skipsRemaining := 0, declaredSymbol := none, declaredColor := none,
    waitingForDeclaration := false, targetScore := 50, roundWinnerId := none,
    matchWindowOpen := false }

/-- A state whose second player is disconnected while the first is active. -/
def c2state : GameState :=
  { baseState with
      players := [basePlayer "p0", { basePlayer "p1" with connected := false }] }

/-- A three-player counter-clockwise state. -/
def c2wstate : GameState :=
  { baseState with
      players := [basePlayer "a", basePlayer "b", basePlayer "c"]
      direction := .ccw
      currentPlayerIndex := 2 }

def c5state : GameState :=
  { baseState with
      players := [basePlayer "p0", basePlayer "p1"]
      playPile := [mkCommand "t" .yellow .wasp] }

def c5w1 : Card := mkCommand "w1" .yellow .wasp
def c5w2 : Card := mkCommand "w2" .yellow .wasp

def c7state : GameState :=
  { baseState with
      players := [basePlayer "p0", basePlayer "p1"]
      playPile := [mkBasic "t" .yellow .star]
      pendingDrawCount := 2 }

def c7card : Card := mkCommand "w" .yellow .wasp

def c8state : GameState :=
  { baseState with playPile := [mkBasic "t" .yellow .star] }

def c8card : Card := mkPower "d" .dragon 1

def c10state : GameState :=
  { baseState with
      players := [basePlayer "p0"]
      drawPile := [mkBasic "d1" .red .moon] }

def c4p1 : Player := { basePlayer "p1" with hand := [mkBasic "h1" .red .moon] }

/-- Empty draw pile over a five-card discard pile. -/
def c4state : GameState :=
  { baseState with
      players := [c4p1]
      drawPile := []
      playPile := [mkBasic "a" .yellow .star, mkBasic "b" .blue .sun,
        mkBasic "c" .red .cloud, mkBasic "d" .yellow .moon,
        mkBasic "t" .blue .star] }

def c6loser : Player :=
  { basePlayer "l" with hand := [mkCommand "x" .red .wasp], score := 10 }

def c6state : GameState :=
  { baseState with players := [basePlayer "w", c6loser], targetScore := 50 }

def c3s0 : GameState :=
  { baseState with
      phase := .lobby
      players := [basePlayer "p0", basePlayer "p1"] }

def c1current : Player :=
  { basePlayer "p0" with hand := [mkBasic "h0" .red .moon] }

def c1matcher : Player :=
  { basePlayer "p1" with
      hand := [mkCommand "w1" .yellow .wasp, mkBasic "h1" .blue .sun] }

/-- A state in the match window right after a Wasp play: player 0 is
current (with the pending penalty), player 1 holds the matching Wasp. -/
def c1state : GameState :=
  { baseState with
      players := [c1current, c1matcher]
      drawPile := [mkBasic "d1" .red .sun]
      playPile := [mkCommand "t0" .yellow .wasp]
      pendingDrawCount := 2
      matchWindowOpen := true }

/-! Theorems. -/

lemma advanceIdx_one (d : Direction) (n idx : Nat) :
    advanceIdx d n 1 idx = stepIdx d n idx := rfl

lemma stepIdx_lt (d : Direction) (n idx : Nat) (hn : 0 < n) :
    stepIdx d n idx < n := by
  cases d <;> exact Nat.mod_lt _ hn

lemma advanceIdx_cw (n : Nat) (hn : 0 < n) :
    ∀ (k idx : Nat), idx < n → advanceIdx .cw n k idx = (idx + k) % n
  | 0, idx, h => by simp [advanceIdx, Nat.mod_eq_of_lt h]
  | k + 1, idx, h => by
    rw [advanceIdx, advanceIdx_cw n hn k _ (stepIdx_lt _ _ _ hn)]
    show ((idx + 1) % n + k) % n = (idx + (k + 1)) % n
    rw [Nat.mod_add_mod]
    congr 1
    omega

lemma advanceIdx_ccw (n : Nat) (hn : 0 < n) :
    ∀ (k idx : Nat), idx < n →
      advanceIdx .ccw n k idx = (idx + k * (n - 1)) % n
  | 0, idx, h => by simp [advanceIdx, Nat.mod_eq_of_lt h]
  | k + 1, idx, h => by
    rw [advanceIdx, advanceIdx_ccw n hn k _ (stepIdx_lt _ _ _ hn)]
    show ((idx + n - 1) % n + k * (n - 1)) % n = (idx + (k + 1) * (n - 1)) % n
    rw [Nat.mod_add_mod]
    congr 1
    have hx : (k + 1) * (n - 1) = k * (n - 1) + (n - 1) := Nat.succ_mul _ _
    omega

/-- C2 counterexample: `advanceTurn` performs no skipping.  In `c2state`
player 0 is connected and player 1 is a disconnected (non-bot) player, yet
`advanceTurn` from index 0 lands on index 1, so the resulting
`currentPlayerIndex` denotes an inactive player even though an active
player exists. -/
theorem advanceTurn_no_skipping_cex :
    (advanceTurn c2state 1).currentPlayerIndex = 1
    ∧ (c2state.players.getD 1 playerDefault).connected = false
    ∧ (c2state.players.getD 0 playerDefault).connected = true
    ∧ c2state.currentPlayerIndex = 0 := by
  refine ⟨rfl, rfl, rfl, rfl⟩

/-- C2 (amended): `advanceTurn` moves `currentPlayerIndex` by `steps`
positions in the current direction, wrapping modulo the player count; it
consults no active-player predicate and skips nobody, and all other state
fields are unchanged. -/
theorem advanceTurn_mod (s : GameState) (steps : Nat)
    (hn : 0 < s.players.length)
    (hidx : s.currentPlayerIndex < s.players.length) :
    ((advanceTurn s steps).currentPlayerIndex =
      (match s.direction with
       | .cw => (s.currentPlayerIndex + steps) % s.players.length
       | .ccw => (s.currentPlayerIndex + steps * (s.players.length - 1)) %
           s.players.length))
    ∧ (advanceTurn s steps).players = s.players
    ∧ (advanceTurn s steps).direction = s.direction
    ∧ (advanceTurn s steps).pendingDrawCount = s.pendingDrawCount
    ∧ (advanceTurn s steps).drawPile = s.drawPile
    ∧ (advanceTurn s steps).playPile = s.playPile := by
  refine ⟨?_, rfl, rfl, rfl, rfl, rfl⟩
  cases hd : s.direction with
  | cw => simp [advanceTurn, hd, advanceIdx_cw _ hn _ _ hidx]
  | ccw => simp [advanceTurn, hd, advanceIdx_ccw _ hn _ _ hidx]

/-- C2 witness: the amended theorem evaluated on a concrete
counter-clockwise three-player state. -/
theorem advanceTurn_mod_witness :
    (advanceTurn c2wstate 2).currentPlayerIndex =
      (c2wstate.currentPlayerIndex + 2 * (c2wstate.players.length - 1)) %
        c2wstate.players.length := by
  have h := (advanceTurn_mod c2wstate 2 (by decide) (by decide)).1
  simpa using h

/-- C7: with a non-empty discard pile and a pending wasp penalty, a card is
playable iff it is a Command card whose command is Wasp; every Basic,
Power, Frog and Crab card is rejected. -/
theorem canPlay_pending_wasp_only (card : Card) (s : GameState) (top : Card)
    (htop : s.playPile.getLast? = some top) (hp : 0 < s.pendingDrawCount) :
    canPlay card s = true ↔
      (card.kind = .command ∧ card.command = some .wasp) := by
  simp [canPlay, htop, hp]

/-- C7 witness: a yellow Wasp is playable under a pending penalty of 2 in a
concrete state. -/
theorem canPlay_pending_wasp_only_witness :
    canPlay c7card c7state = true ↔
      (c7card.kind = .command ∧ c7card.command = some .wasp) :=
  canPlay_pending_wasp_only c7card c7state (mkBasic "t" .yellow .star)
    (by decide) (by decide)

/-- C8: with a non-empty discard pile and no pending penalty, a Dragon is
accepted on a Basic, Command or Dragon top and rejected on a Peacock top;
symmetrically for a Peacock. -/
theorem canPlay_power_gating (card top : Card) (s : GameState)
    (htop : s.playPile.getLast? = some top) (hp : s.pendingDrawCount = 0) :
    ((card.kind = .power ∧ card.power = some .dragon) →
      ((top.kind = .basic → canPlay card s = true)
        ∧ (top.kind = .command → canPlay card s = true)
        ∧ (top.kind = .power → top.power = some .dragon →
            canPlay card s = true)
        ∧ (top.kind = .power → top.power = some .peacock →
            canPlay card s = false)))
    ∧ ((card.kind = .power ∧ card.power = some .peacock) →
      ((top.kind = .basic → canPlay card s = true)
        ∧ (top.kind = .command → canPlay card s = true)
        ∧ (top.kind = .power → top.power = some .peacock →
            canPlay card s = true)
        ∧ (top.kind = .power → top.power = some .dragon →
            canPlay card s = false))) := by
  constructor
  · rintro ⟨hk, hpw⟩
    refine ⟨fun ht => ?_, fun ht => ?_, fun ht hpp => ?_, fun ht hpp => ?_⟩
    · simp [canPlay, htop, hp, hk, hpw, ht]
    · simp [canPlay, htop, hp, hk, hpw, ht]
    · simp [canPlay, htop, hp, hk, hpw, ht, hpp]
    · simp [canPlay, htop, hp, hk, hpw, ht, hpp]
  · rintro ⟨hk, hpw⟩
    refine ⟨fun ht => ?_, fun ht => ?_, fun ht hpp => ?_, fun ht hpp => ?_⟩
    · simp [canPlay, htop, hp, hk, hpw, ht]
    · simp [canPlay, htop, hp, hk, hpw, ht]
    · simp [canPlay, htop, hp, hk, hpw, ht, hpp]
    · simp [canPlay, htop, hp, hk, hpw, ht, hpp]

/-- C8 witness: on a concrete basic top, a Dragon is playable. -/
theorem canPlay_power_gating_witness :
    canPlay c8card c8state = true :=
  ((canPlay_power_gating c8card (mkBasic "t" .yellow .star) c8state
      (by decide) (by decide)).1 ⟨rfl, rfl⟩).1 rfl

/-- C9: `isMatch` is symmetric in its two card arguments. -/
theorem isMatch_symm (a b : Card) : isMatch a b = isMatch b a := by
  unfold isMatch
  by_cases hap : a.kind = .power <;> by_cases hbp : b.kind = .power <;>
    simp [hap, hbp]
  · congr 1 <;> exact decide_eq_decide.mpr eq_comm
  · by_cases hc : a.color = b.color
    · simp only [hc, ne_eq, not_true_eq_false, if_false]
      by_cases hsa : a.symbol.isSome <;> by_cases hsb : b.symbol.isSome <;>
        by_cases hca : a.command.isSome <;> by_cases hcb : b.command.isSome <;>
          simp [hsa, hsb, hca, hcb] <;>
            exact eq_comm
    · have hc' : b.color ≠ a.color := fun h => hc h.symm
      simp [hc, hc']

/-- C5: `applyDouble` appends both cards with `card2` on top and applies
`card2`'s effect with amplified magnitude: double Wasp adds 4 in one step
and advances 1; double Frog advances 3 steps; double Crab leaves direction
unchanged and advances 1; double Basic advances 1; double Power sets
`waitingForDeclaration` without advancing. -/
theorem applyDouble_effects (s : GameState) (pid : String)
    (card1 card2 : Card) (_hm : isMatch card1 card2 = true) :
    (applyDouble s pid card1 card2).playPile = s.playPile ++ [card1, card2]
    ∧ (card2.kind = .command → card2.command = some .wasp →
        (applyDouble s pid card1 card2).pendingDrawCount
            = s.pendingDrawCount + 4
          ∧ (applyDouble s pid card1 card2).currentPlayerIndex
            = stepIdx s.direction s.players.length s.currentPlayerIndex)
    ∧ (card2.kind = .command → card2.command = some .frog →
        (applyDouble s pid card1 card2).currentPlayerIndex
          = advanceIdx s.direction s.players.length 3 s.currentPlayerIndex
        ∧ (applyDouble s pid card1 card2).pendingDrawCount
          = s.pendingDrawCount)
    ∧ (card2.kind = .command → card2.command = some .crab →
        (applyDouble s pid card1 card2).direction = s.direction
        ∧ (applyDouble s pid card1 card2).currentPlayerIndex
          = stepIdx s.direction s.players.length s.currentPlayerIndex)
    ∧ (card2.kind = .basic →
        (applyDouble s pid card1 card2).currentPlayerIndex
          = stepIdx s.direction s.players.length s.currentPlayerIndex)
    ∧ (card2.kind = .power →
        (applyDouble s pid card1 card2).waitingForDeclaration = true
        ∧ (applyDouble s pid card1 card2).currentPlayerIndex
          = s.currentPlayerIndex) := by
  refine ⟨?_, fun hk hc => ?_, fun hk hc => ?_, fun hk hc => ?_,
    fun hk => ?_, fun hk => ?_⟩
  · cases hk : card2.kind <;>
      simp [applyDouble, placeCard, advanceTurn, hk] <;>
        split_ifs <;> simp [advanceTurn]
  · exact ⟨by simp [applyDouble, placeCard, advanceTurn, hk, hc],
      by simp [applyDouble, placeCard, advanceTurn, hk, hc, advanceIdx_one]⟩
  · exact ⟨by simp [applyDouble, placeCard, advanceTurn, hk, hc],
      by simp [applyDouble, placeCard, advanceTurn, hk, hc]⟩
  · exact ⟨by simp [applyDouble, placeCard, advanceTurn, hk, hc],
      by simp [applyDouble, placeCard, advanceTurn, hk, hc, advanceIdx_one]⟩
  · simp [applyDouble, placeCard, advanceTurn, hk, advanceIdx_one]
  · exact ⟨by simp [applyDouble, placeCard, hk],
      by simp [applyDouble, placeCard, hk]⟩

/-- C5 witness: a concrete double Wasp adds exactly 4 to
`pendingDrawCount`. -/
theorem applyDouble_effects_witness :
    isMatch c5w1 c5w2 = true
    ∧ (applyDouble c5state "p0" c5w1 c5w2).pendingDrawCount
        = c5state.pendingDrawCount + 4 :=
  ⟨by decide,
    ((applyDouble_effects c5state "p0" c5w1 c5w2 (by decide)).2.1 rfl rfl).1⟩

/-- C10: `drawCards` for a player id that belongs to no player returns the
state unchanged: no hand, the draw pile and the discard pile are all as
before, and no reshuffle occurs. -/
theorem drawCards_unknown_player (shuffle : List Card → List Card)
    (s : GameState) (pid : String) (count : Nat)
    (h : ∀ p ∈ s.players, p.id ≠ pid) :
    drawCards shuffle s pid count = s := by
  have hf : s.players.find? (fun p => decide (p.id = pid)) = none := by
    rw [List.find?_eq_none]
    intro p hp
    simpa using h p hp
  simp [drawCards, hf]

/-- C10 witness: drawing for an unknown id on a concrete state is the
identity. -/
theorem drawCards_unknown_player_witness :
    drawCards (fun l => l) c10state "zz" 3 = c10state :=
  drawCards_unknown_player (fun l => l) c10state "zz" 3 (by decide)

/-! Lemmas about `drawLoop` and `giveToFirst`. -/

lemma drawLoop_enough (shuffle : List Card → List Card) :
    ∀ (k : Nat) (dp pp acc : List Card), k ≤ dp.length →
      drawLoop shuffle k dp pp acc = (dp.drop k, pp, acc ++ dp.take k)
  | 0, dp, pp, acc, _ => by simp [drawLoop]
  | k + 1, [], pp, acc, h => by simp at h
  | k + 1, c :: rest, pp, acc, h => by
    have hr : k ≤ rest.length := by simpa using h
    simp [drawLoop, drawLoop_enough shuffle k rest pp (acc ++ [c]) hr]

lemma drawLoop_replenish (shuffle : List Card → List Card)
    (k : Nat) (pp acc : List Card) (t : Card)
    (htop : pp.getLast? = some t)
    (hlen : k + 1 ≤ (shuffle pp.dropLast).length) :
    drawLoop shuffle (k + 1) [] pp acc =
      ((shuffle pp.dropLast).drop (k + 1), [t],
        acc ++ (shuffle pp.dropLast).take (k + 1)) := by
  match hsh : shuffle pp.dropLast with
  | [] => rw [hsh] at hlen; simp at hlen
  | c :: rest =>
    have hr : k ≤ rest.length := by
      rw [hsh] at hlen; simpa using hlen
    simp [drawLoop, htop, hsh,
      drawLoop_enough shuffle k rest [t] (acc ++ [c]) hr]

lemma drawLoop_exhausted (shuffle : List Card → List Card)
    (k : Nat) (pp acc : List Card) (t : Card)
    (htop : pp.getLast? = some t)
    (hsh : shuffle pp.dropLast = []) :
    drawLoop shuffle (k + 1) [] pp acc = ([], [t], acc) := by
  simp [drawLoop, htop, hsh]

lemma giveToFirst_find_same (x : String) (drawn : List Card) :
    ∀ ps : List Player,
      (giveToFirst x drawn ps).find? (fun p => decide (p.id = x)) =
        (ps.find? (fun p => decide (p.id = x))).map
          (fun p => { p with hand := p.hand ++ drawn })
  | [] => rfl
  | p :: ps => by
    by_cases h : p.id = x
    · simp [giveToFirst, h, List.find?_cons]
    · simp [giveToFirst, h, List.find?_cons,
        giveToFirst_find_same x drawn ps]

lemma giveToFirst_find_other (x y : String) (drawn : List Card)
    (hxy : y ≠ x) :
    ∀ ps : List Player,
      (giveToFirst x drawn ps).find? (fun p => decide (p.id = y)) =
        ps.find? (fun p => decide (p.id = y))
  | [] => rfl
  | p :: ps => by
    by_cases h : p.id = x
    · have hy : ¬ p.id = y := fun hpy => hxy (hpy.symm.trans h)
      rw [giveToFirst, if_pos h,
        List.find?_cons_of_neg _ (by simpa using hy),
        List.find?_cons_of_neg _ (by simpa using hy)]
    · by_cases hy : p.id = y
      · rw [giveToFirst, if_neg h,
          List.find?_cons_of_pos _ (by simpa using hy),
          List.find?_cons_of_pos _ (by simpa using hy)]
      · rw [giveToFirst, if_neg h,
          List.find?_cons_of_neg _ (by simpa using hy),
          List.find?_cons_of_neg _ (by simpa using hy)]
        exact giveToFirst_find_other x y drawn hxy ps

lemma giveToFirst_ids (x : String) (drawn : List Card) :
    ∀ ps : List Player,
      (giveToFirst x drawn ps).map Player.id = ps.map Player.id
  | [] => rfl
  | p :: ps => by
    by_cases h : p.id = x <;>
      simp [giveToFirst, h, giveToFirst_ids x drawn ps]

lemma giveToFirst_length (x : String) (drawn : List Card) (ps : List Player) :
    (giveToFirst x drawn ps).length = ps.length := by
  have h := congrArg List.length (giveToFirst_ids x drawn ps)
  simpa using h

lemma giveToFirst_nil_drawn (x : String) :
    ∀ ps : List Player, giveToFirst x [] ps = ps
  | [] => rfl
  | p :: ps => by
    by_cases h : p.id = x
    · rw [giveToFirst, if_pos h, List.append_nil]
    · rw [giveToFirst, if_neg h]
      exact congrArg (p :: ·) (giveToFirst_nil_drawn x ps)

/-- C4: `drawCards` never changes `currentPlayerIndex`; with enough cards
it moves `count` cards from the front of the draw pile into the player's
hand; on an empty draw pile it replenishes from the shuffled discard pile
minus its top card, which stays on the discard pile; and when nothing can
be replenished it stops silently, returning the state unchanged. -/
theorem drawCards_spec (shuffle : List Card → List Card)
    (hs : ∀ l, (shuffle l).length = l.length) :
    (∀ (s : GameState) (pid : String) (count : Nat),
      (drawCards shuffle s pid count).currentPlayerIndex =
        s.currentPlayerIndex)
    ∧ (∀ (s : GameState) (pid : String) (count : Nat) (p : Player),
        s.players.find? (fun q => decide (q.id = pid)) = some p →
        count ≤ s.drawPile.length →
        ((drawCards shuffle s pid count).players.find?
            (fun q => decide (q.id = pid))).map Player.hand
            = some (p.hand ++ s.drawPile.take count)
        ∧ (drawCards shuffle s pid count).drawPile = s.drawPile.drop count
        ∧ (drawCards shuffle s pid count).playPile = s.playPile)
    ∧ (∀ (s : GameState) (pid : String) (count : Nat) (p : Player) (t : Card),
        s.players.find? (fun q => decide (q.id = pid)) = some p →
        s.drawPile = [] → s.playPile.getLast? = some t → 1 ≤ count →
        count ≤ (shuffle s.playPile.dropLast).length →
        ((drawCards shuffle s pid count).players.find?
            (fun q => decide (q.id = pid))).map Player.hand
            = some (p.hand ++ (shuffle s.playPile.dropLast).take count)
        ∧ (drawCards shuffle s pid count).drawPile =
            (shuffle s.playPile.dropLast).drop count
        ∧ (drawCards shuffle s pid count).playPile = [t])
    ∧ (∀ (s : GameState) (pid : String) (count : Nat) (t : Card),
        s.drawPile = [] → s.playPile = [t] →
        drawCards shuffle s pid count = s) := by
  refine ⟨?_, ?_, ?_, ?_⟩
  · intro s pid count
    cases hf : s.players.find? (fun q => decide (q.id = pid)) with
    | none => simp [drawCards, hf]
    | some p =>
      rcases hdl : drawLoop shuffle count s.drawPile s.playPile [] with
        ⟨dp, pp, drawn⟩
      simp [drawCards, hf, hdl]
  · intro s pid count p hf hc
    have hdl := drawLoop_enough shuffle count s.drawPile s.playPile [] hc
    refine ⟨?_, ?_, ?_⟩ <;>
      simp [drawCards, hf, hdl, giveToFirst_find_same]
  · intro s pid count p t hf hdp htop hc1 hc2
    match hcount : count with
    | 0 => omega
    | k + 1 =>
      have hdl := drawLoop_replenish shuffle k s.playPile [] t htop
        (by omega)
      refine ⟨?_, ?_, ?_⟩ <;>
        simp [drawCards, hf, hdp, hdl, giveToFirst_find_same]
  · intro s pid count t hdp hpp
    obtain ⟨f1, f2, f3, f4, f5, f6, f7, f8, f9, f10, f11, f12, f13, f14⟩ := s
    simp only at hdp hpp
    subst hdp
    subst hpp
    cases hf : f2.find? (fun q => decide (q.id = pid)) with
    | none => simp [drawCards, hf]
    | some p =>
      match count with
      | 0 =>
        simp [drawCards, hf, drawLoop, giveToFirst_nil_drawn]
      | k + 1 =>
        have hsh : shuffle (List.dropLast [t]) = [] := by
          have hlen := hs (List.dropLast [t])
          exact List.length_eq_zero.mp (by simpa using hlen)
        have htop : List.getLast? [t] = some t := rfl
        have hdl := drawLoop_exhausted shuffle k [t] [] t htop hsh
        simp [drawCards, hf, hdl, giveToFirst_nil_drawn]

/-- C4 witness: the spec §8 replenishment scenario — empty draw pile over
a five-card discard pile, drawing 3 recycles the shuffled bottom four cards,
keeps the old top alone on the discard pile and delivers 3 cards. -/
theorem drawCards_spec_witness :
    ((drawCards (fun l => l) c4state "p1" 3).players.find?
        (fun q => decide (q.id = "p1"))).map Player.hand
      = some (c4p1.hand ++ (c4state.playPile.dropLast).take 3)
    ∧ (drawCards (fun l => l) c4state "p1" 3).playPile =
        [mkBasic "t" .blue .star] :=
  ⟨((drawCards_spec (fun l => l) (fun l => rfl)).2.2.1 c4state "p1" 3 c4p1
      (mkBasic "t" .blue .star) (by decide) rfl (by decide) (by decide)
      (by decide)).1,
    ((drawCards_spec (fun l => l) (fun l => rfl)).2.2.1 c4state "p1" 3 c4p1
      (mkBasic "t" .blue .star) (by decide) rfl (by decide) (by decide)
      (by decide)).2.2⟩

/-! Lemmas for `checkRoundOver`. -/

lemma find?_eq_get_of_first {α : Type} (q : α → Bool) :
    ∀ (l : List α) (i : Nat) (h : i < l.length),
      (∀ k (hk : k < i), q (l.get ⟨k, lt_trans hk h⟩) = false) →
      q (l.get ⟨i, h⟩) = true →
      l.find? q = some (l.get ⟨i, h⟩)
  | [], i, h, _, _ => by simp at h
  | a :: l, 0, h, _, hq => by
    rw [List.find?_cons_of_pos _ (by simpa using hq)]
    rfl
  | a :: l, i + 1, h, hfirst, hq => by
    have ha : q a = false := hfirst 0 (Nat.succ_pos i)
    rw [List.find?_cons_of_neg _ (by simp [ha])]
    exact find?_eq_get_of_first q l i (Nat.lt_of_succ_lt_succ h)
      (fun k hk => hfirst (k + 1) (Nat.succ_lt_succ hk)) hq

/-- C6: if no hand is empty `checkRoundOver` is the identity; otherwise the
first empty-handed player wins the round (gaining 0), every other player's
score grows by their hand's point total, `roundWinnerId` is set, and the
phase becomes GameOver iff some updated score reaches `targetScore`, else
RoundOver. -/
theorem checkRoundOver_spec :
    (∀ s : GameState, (∀ p ∈ s.players, p.hand ≠ []) → checkRoundOver s = s)
    ∧ (∀ (s : GameState) (wi : Nat) (hwi : wi < s.players.length),
        (s.players.map Player.id).Nodup →
        (s.players.get ⟨wi, hwi⟩).hand = [] →
        (∀ k (hk : k < wi), (s.players.get ⟨k, lt_trans hk hwi⟩).hand ≠ []) →
        (checkRoundOver s).roundWinnerId
            = some (s.players.get ⟨wi, hwi⟩).id
        ∧ (checkRoundOver s).players.length = s.players.length
        ∧ (∀ (k : Nat) (hk : k < s.players.length)
            (hk2 : k < (checkRoundOver s).players.length),
            ((checkRoundOver s).players.get ⟨k, hk2⟩).score =
              (s.players.get ⟨k, hk⟩).score +
                (if k = wi then 0
                 else calcHandScore (s.players.get ⟨k, hk⟩).hand))
        ∧ ((checkRoundOver s).phase = .game_over ↔
            ∃ p ∈ (checkRoundOver s).players, s.targetScore ≤ p.score)
        ∧ ((checkRoundOver s).phase = .game_over
            ∨ (checkRoundOver s).phase = .round_over)) := by
  constructor
  · intro s hne
    have hf : s.players.find? (fun p => p.hand.isEmpty) = none := by
      rw [List.find?_eq_none]
      intro p hp
      simpa [List.isEmpty_iff] using hne p hp
    simp [checkRoundOver, hf]
  · intro s wi hwi hnodup hempty hfirst
    have hf : s.players.find? (fun p => p.hand.isEmpty)
        = some (s.players.get ⟨wi, hwi⟩) := by
      refine find?_eq_get_of_first _ s.players wi hwi ?_ ?_
      · intro k hk
        simpa [List.isEmpty_iff] using hfirst k hk
      · simpa [List.isEmpty_iff] using hempty
    have hid : ∀ (k : Nat) (hk : k < s.players.length),
        ((s.players.get ⟨k, hk⟩).id = (s.players.get ⟨wi, hwi⟩).id ↔ k = wi) := by
      intro k hk
      constructor
      · intro h
        have h1 : (s.players.map Player.id).get
              ⟨k, by simpa using hk⟩ =
            (s.players.map Player.id).get ⟨wi, by simpa using hwi⟩ := by
          simpa [List.get_map] using h
        have := (List.Nodup.get_inj_iff hnodup).mp h1
        simpa using congrArg Fin.val this
      · intro h
        subst h
        rfl
    have hpl : (checkRoundOver s).players = s.players.map (fun p =>
        { p with score := p.score +
            (if p.id = (s.players.get ⟨wi, hwi⟩).id then 0
             else calcHandScore p.hand) }) := by
      simp [checkRoundOver, hf]
    have hph : (checkRoundOver s).phase =
        (if (s.players.map (fun p =>
            { p with score := p.score +
                (if p.id = (s.players.get ⟨wi, hwi⟩).id then 0
                 else calcHandScore p.hand) })).any
              (fun p => decide (s.targetScore ≤ p.score))
         then GamePhase.game_over else GamePhase.round_over) := by
      simp [checkRoundOver, hf]
    refine ⟨?_, ?_, ?_, ?_, ?_⟩
    · simp [checkRoundOver, hf]
    · simp [hpl]
    · intro k hk hk2
      have hget : (checkRoundOver s).players.get ⟨k, hk2⟩ =
          (fun p => { p with score := p.score +
            (if p.id = (s.players.get ⟨wi, hwi⟩).id then 0
             else calcHandScore p.hand) }) (s.players.get ⟨k, hk⟩) := by
        simp only [List.get_eq_getElem, hpl, List.getElem_map]
      rw [hget]
      by_cases hkwi : k = wi
      · have hidk := (hid k hk).mpr hkwi
        simp only [List.get_eq_getElem] at hidk
        simp [hidk, hkwi]
      · have hne : ¬ (s.players.get ⟨k, hk⟩).id
            = (s.players.get ⟨wi, hwi⟩).id :=
          fun h => hkwi ((hid k hk).mp h)
        simp only [List.get_eq_getElem] at hne
        simp [hne, hkwi]
    · rw [hph, hpl]
      cases hG : (s.players.map (fun p =>
          { p with score := p.score +
              (if p.id = (s.players.get ⟨wi, hwi⟩).id then 0
               else calcHandScore p.hand) })).any
            (fun p => decide (s.targetScore ≤ p.score)) with
      | true =>
        simp only [hG, if_true]
        simp only [List.any_eq_true, decide_eq_true_eq] at hG
        simpa using hG
      | false =>
        simp only [hG, Bool.false_eq_true, if_false]
        constructor
        · intro h
          exact absurd h (by simp)
        · intro hex
          rcases hex with ⟨p, hp, hsp⟩
          have hall := List.any_eq_false.mp hG
          exact absurd (decide_eq_true hsp) (by simpa using hall p hp)
    · rw [hph]
      cases hG : (s.players.map (fun p =>
          { p with score := p.score +
              (if p.id = (s.players.get ⟨wi, hwi⟩).id then 0
               else calcHandScore p.hand) })).any
            (fun p => decide (s.targetScore ≤ p.score)) with
      | true =>
        left
        simp [hG]
      | false =>
        right
        simp [hG]

/-- C6 witness: concrete two-player state in which player 0 has emptied
their hand; the loser's 15-point wasp is scored and the phase is decided
by the 50-point target. -/
theorem checkRoundOver_spec_witness :
    (checkRoundOver c6state).roundWinnerId
        = some (c6state.players.get ⟨0, by decide⟩).id
    ∧ ((checkRoundOver c6state).phase = .game_over
        ∨ (checkRoundOver c6state).phase = .round_over) :=
  ⟨(checkRoundOver_spec.2 c6state 0 (by decide) (by decide) rfl
      (fun k hk => absurd hk (Nat.not_lt_zero k))).1,
    (checkRoundOver_spec.2 c6state 0 (by decide) (by decide) rfl
      (fun k hk => absurd hk (Nat.not_lt_zero k))).2.2.2.2⟩

/-! Card-count bookkeeping lemmas for the conservation invariant. -/

lemma sumHands_nil : sumHands [] = 0 := rfl

lemma sumHands_cons (p : Player) (ps : List Player) :
    sumHands (p :: ps) = p.hand.length + sumHands ps := rfl

lemma sum_map_const_of {α : Type} (c : Nat) (g : α → Nat) (hg : ∀ a, g a = c) :
    ∀ l : List α, (l.map g).sum = l.length * c
  | [] => by simp
  | a :: l => by
    simp [hg a, sum_map_const_of c g hg l]
    ring

lemma drawLoop_conserve (shuffle : List Card → List Card)
    (hs : ∀ l, (shuffle l).length = l.length) :
    ∀ (k : Nat) (dp pp acc dp2 pp2 drawn : List Card),
      drawLoop shuffle k dp pp acc = (dp2, pp2, drawn) →
      dp2.length + pp2.length + drawn.length
        = dp.length + pp.length + acc.length
  | 0, dp, pp, acc, dp2, pp2, drawn, h => by
    simp [drawLoop, Prod.ext_iff] at h
    obtain ⟨h1, h2, h3⟩ := h
    subst h1; subst h2; subst h3
    rfl
  | k + 1, [], [], acc, dp2, pp2, drawn, h => by
    have h0 : shuffle ([] : List Card) = [] :=
      List.length_eq_zero.mp (by simpa using hs ([] : List Card))
    simp [drawLoop, h0, Prod.ext_iff] at h
    obtain ⟨h1, h2, h3⟩ := h
    subst h1; subst h2; subst h3
    rfl
  | k + 1, [], p0 :: pr, acc, dp2, pp2, drawn, h => by
    have hgl : (p0 :: pr).getLast? = some ((p0 :: pr).getLast (by simp)) :=
      List.getLast?_eq_getLast _ (by simp)
    have hlen : (shuffle (p0 :: pr).dropLast).length = pr.length := by
      rw [hs]
      simp
    cases hsh : shuffle (p0 :: pr).dropLast with
    | nil =>
      have hpr : pr.length = 0 := by
        rw [hsh] at hlen
        simpa using hlen.symm
      simp [drawLoop, hgl, hsh, Prod.ext_iff] at h
      obtain ⟨h1, h2, h3⟩ := h
      subst h1; subst h2; subst h3
      simp only [List.length_nil, List.length_cons]
      omega
    | cons c rest =>
      have hrest : rest.length + 1 = pr.length := by
        rw [hsh] at hlen
        simpa using hlen
      simp only [drawLoop, hgl, hsh, List.isEmpty_nil, if_true] at h
      have ih := drawLoop_conserve shuffle hs k rest
        [(p0 :: pr).getLast (by simp)] (acc ++ [c]) dp2 pp2 drawn h
      simp only [List.length_append, List.length_cons, List.length_nil] at ih ⊢
      omega
  | k + 1, c :: rest, pp, acc, dp2, pp2, drawn, h => by
    simp only [drawLoop, List.isEmpty_cons, if_false, Bool.false_eq_true] at h
    have ih := drawLoop_conserve shuffle hs k rest pp (acc ++ [c]) dp2 pp2 drawn h
    simp only [List.length_append, List.length_cons, List.length_nil] at ih ⊢
    omega

lemma giveToFirst_sumHands (x : String) (drawn : List Card) :
    ∀ ps : List Player,
      (ps.find? (fun p => decide (p.id = x))).isSome = true →
      sumHands (giveToFirst x drawn ps) = sumHands ps + drawn.length
  | [], h => by simp at h
  | p :: ps, h => by
    by_cases hx : p.id = x
    · rw [giveToFirst, if_pos hx, sumHands_cons, sumHands_cons]
      simp [List.length_append]
      omega
    · rw [List.find?_cons_of_neg _ (by simpa using hx)] at h
      rw [giveToFirst, if_neg hx, sumHands_cons, sumHands_cons,
        giveToFirst_sumHands x drawn ps h]
      omega

lemma eraseFirstById_length (cid : String) :
    ∀ (hand : List Card) (c : Card),
      hand.find? (fun d => decide (d.id = cid)) = some c →
      (eraseFirstById cid hand).length + 1 = hand.length
  | [], c, h => by simp at h
  | d :: ds, c, h => by
    by_cases hd : d.id = cid
    · simp [eraseFirstById, hd]
    · rw [List.find?_cons_of_neg _ (by simpa using hd)] at h
      have ih := eraseFirstById_length cid ds c h
      simp only [eraseFirstById, hd, if_false, List.length_cons]
      omega

lemma rmMap_eq_self (pid cid : String) :
    ∀ ps : List Player, (∀ p ∈ ps, p.id ≠ pid) →
      ps.map (fun p => if p.id = pid
        then { p with hand := eraseFirstById cid p.hand } else p) = ps
  | [], _ => rfl
  | p :: ps, h => by
    rw [List.map_cons, if_neg (h p (by simp)),
      rmMap_eq_self pid cid ps (fun q hq => h q (by simp [hq]))]

lemma rmMap_sum (pid cid : String) :
    ∀ (ps : List Player) (c : Card),
      (ps.map Player.id).Nodup →
      ((ps.find? (fun p => decide (p.id = pid))).bind
        (fun p => p.hand.find? (fun d => decide (d.id = cid)))) = some c →
      sumHands (ps.map (fun p => if p.id = pid
        then { p with hand := eraseFirstById cid p.hand } else p)) + 1
        = sumHands ps
  | [], c, _, h => by simp at h
  | p :: ps, c, hnd, h => by
    have hnd2 : (∀ x ∈ ps, ¬ x.id = p.id) ∧ (ps.map Player.id).Nodup := by
      simpa using hnd
    by_cases hp : p.id = pid
    · rw [List.find?_cons_of_pos _ (by simpa using hp)] at h
      simp only [Option.some_bind] at h
      have hlen := eraseFirstById_length cid p.hand c h
      have htail : ∀ q ∈ ps, q.id ≠ pid := by
        intro q hq hqe
        exact hnd2.1 q hq (hqe.trans hp.symm)
      rw [List.map_cons, if_pos hp, rmMap_eq_self pid cid ps htail,
        sumHands_cons, sumHands_cons]
      have hh : ({ p with hand := eraseFirstById cid p.hand } : Player).hand
          = eraseFirstById cid p.hand := rfl
      rw [hh]
      omega
    · rw [List.find?_cons_of_neg _ (by simpa using hp)] at h
      rw [List.map_cons, if_neg hp, sumHands_cons, sumHands_cons]
      have := rmMap_sum pid cid ps c hnd2.2 h
      omega

lemma map_id_of_id_pres (g : Player → Player) (hg : ∀ p, (g p).id = p.id) :
    ∀ ps : List Player, (ps.map g).map Player.id = ps.map Player.id
  | [] => rfl
  | p :: ps => by simp [hg p, map_id_of_id_pres g hg ps]

/-! Per-operation conservation and id-preservation lemmas. -/

lemma advanceTurn_cardCount (s : GameState) (k : Nat) :
    cardCount (advanceTurn s k) = cardCount s := rfl

lemma advanceTurn_ids (s : GameState) (k : Nat) :
    (advanceTurn s k).players = s.players := rfl

lemma dragon_cardCount (s : GameState) (sym : CardSymbol) :
    cardCount (applyDragonDeclaration s sym) = cardCount s := rfl

lemma dragon_ids (s : GameState) (sym : CardSymbol) :
    (applyDragonDeclaration s sym).players = s.players := rfl

lemma peacock_cardCount (s : GameState) (col : CardColor) :
    cardCount (applyPeacockDeclaration s col) = cardCount s := rfl

lemma peacock_ids (s : GameState) (col : CardColor) :
    (applyPeacockDeclaration s col).players = s.players := rfl

lemma applyPlay_players (s : GameState) (pid : String) (card : Card) :
    (applyPlay s pid card).players = s.players := by
  unfold applyPlay placeCard advanceTurn
  cases card.kind
  · rfl
  · split_ifs <;> rfl
  · rfl

lemma applyPlay_drawPile (s : GameState) (pid : String) (card : Card) :
    (applyPlay s pid card).drawPile = s.drawPile := by
  unfold applyPlay placeCard advanceTurn
  cases card.kind
  · rfl
  · split_ifs <;> rfl
  · rfl

lemma applyPlay_playPile (s : GameState) (pid : String) (card : Card) :
    (applyPlay s pid card).playPile = s.playPile ++ [card] := by
  unfold applyPlay placeCard advanceTurn
  cases card.kind
  · rfl
  · split_ifs <;> rfl
  · rfl

lemma applyPlay_cardCount (s : GameState) (pid : String) (card : Card) :
    cardCount (applyPlay s pid card) = cardCount s + 1 := by
  unfold cardCount
  rw [applyPlay_players, applyPlay_drawPile, applyPlay_playPile]
  simp [List.length_append]
  omega

lemma applyDouble_players (s : GameState) (pid : String) (c1 c2 : Card) :
    (applyDouble s pid c1 c2).players = s.players := by
  unfold applyDouble placeCard advanceTurn
  cases c2.kind
  · rfl
  · split_ifs <;> rfl
  · rfl

lemma applyDouble_drawPile (s : GameState) (pid : String) (c1 c2 : Card) :
    (applyDouble s pid c1 c2).drawPile = s.drawPile := by
  unfold applyDouble placeCard advanceTurn
  cases c2.kind
  · rfl
  · split_ifs <;> rfl
  · rfl

lemma applyDouble_playPile (s : GameState) (pid : String) (c1 c2 : Card) :
    (applyDouble s pid c1 c2).playPile = s.playPile ++ [c1] ++ [c2] := by
  unfold applyDouble placeCard advanceTurn
  cases c2.kind
  · rfl
  · split_ifs <;> rfl
  · rfl

lemma applyDouble_cardCount (s : GameState) (pid : String) (c1 c2 : Card) :
    cardCount (applyDouble s pid c1 c2) = cardCount s + 2 := by
  unfold cardCount
  rw [applyDouble_players, applyDouble_drawPile, applyDouble_playPile]
  simp [List.length_append]
  omega

lemma removeFromHand_cardCount (s : GameState) (pid cid : String) (c : Card)
    (hnd : (s.players.map Player.id).Nodup)
    (hc : (removeFromHand s pid cid).2 = some c) :
    cardCount (removeFromHand s pid cid).1 + 1 = cardCount s := by
  unfold cardCount
  have hsum := rmMap_sum pid cid s.players c hnd hc
  have hdp : (removeFromHand s pid cid).1.drawPile = s.drawPile := rfl
  have hpp : (removeFromHand s pid cid).1.playPile = s.playPile := rfl
  have hps : (removeFromHand s pid cid).1.players
      = s.players.map (fun p => if p.id = pid
        then { p with hand := eraseFirstById cid p.hand } else p) := rfl
  rw [hdp, hpp, hps]
  omega

lemma removeFromHand_ids (s : GameState) (pid cid : String) :
    (removeFromHand s pid cid).1.players.map Player.id
      = s.players.map Player.id := by
  have hps : (removeFromHand s pid cid).1.players
      = s.players.map (fun p => if p.id = pid
        then { p with hand := eraseFirstById cid p.hand } else p) := rfl
  rw [hps]
  exact map_id_of_id_pres _
    (fun p => by by_cases h : p.id = pid <;> simp [h]) s.players

lemma drawCards_cardCount (shuffle : List Card → List Card)
    (hs : ∀ l, (shuffle l).length = l.length)
    (s : GameState) (pid : String) (count : Nat) :
    cardCount (drawCards shuffle s pid count) = cardCount s := by
  cases hf : s.players.find? (fun p => decide (p.id = pid)) with
  | none => simp [drawCards, hf]
  | some p =>
    rcases hdl : drawLoop shuffle count s.drawPile s.playPile [] with
      ⟨dp2, pp2, drawn⟩
    have hcons := drawLoop_conserve shuffle hs count s.drawPile s.playPile []
      dp2 pp2 drawn hdl
    have hsum := giveToFirst_sumHands pid drawn s.players (by simp [hf])
    simp only [drawCards, hf, hdl, cardCount]
    simp only [List.length_nil] at hcons
    omega

lemma drawCards_ids (shuffle : List Card → List Card)
    (s : GameState) (pid : String) (count : Nat) :
    (drawCards shuffle s pid count).players.map Player.id
      = s.players.map Player.id := by
  cases hf : s.players.find? (fun p => decide (p.id = pid)) with
  | none => simp [drawCards, hf]
  | some p =>
    rcases hdl : drawLoop shuffle count s.drawPile s.playPile [] with
      ⟨dp2, pp2, drawn⟩
    simp [drawCards, hf, hdl, giveToFirst_ids]

lemma playCardOp_cardCount (s : GameState) (pid cid : String)
    (hnd : (s.players.map Player.id).Nodup) :
    cardCount (playCardOp s pid cid) = cardCount s := by
  rcases hrm : removeFromHand s pid cid with ⟨s2, oc⟩
  cases oc with
  | none => simp [playCardOp, hrm]
  | some c =>
    have h1 : cardCount s2 + 1 = cardCount s := by
      have := removeFromHand_cardCount s pid cid c hnd (by rw [hrm])
      rwa [hrm] at this
    have h2 := applyPlay_cardCount s2 pid c
    simp only [playCardOp, hrm]
    omega

lemma playCardOp_ids (s : GameState) (pid cid : String) :
    (playCardOp s pid cid).players.map Player.id
      = s.players.map Player.id := by
  rcases hrm : removeFromHand s pid cid with ⟨s2, oc⟩
  cases oc with
  | none => simp [playCardOp, hrm]
  | some c =>
    have h1 : s2.players.map Player.id = s.players.map Player.id := by
      have := removeFromHand_ids s pid cid
      rwa [hrm] at this
    simp only [playCardOp, hrm, applyPlay_players]
    exact h1

lemma playDoubleOp_cardCount (s : GameState) (pid cid1 cid2 : String)
    (hnd : (s.players.map Player.id).Nodup) :
    cardCount (playDoubleOp s pid cid1 cid2) = cardCount s := by
  rcases hrm1 : removeFromHand s pid cid1 with ⟨s2, oc1⟩
  cases oc1 with
  | none => simp [playDoubleOp, hrm1]
  | some c1 =>
    rcases hrm2 : removeFromHand s2 pid cid2 with ⟨s3, oc2⟩
    cases oc2 with
    | none => simp [playDoubleOp, hrm1, hrm2]
    | some c2 =>
      have h1 : cardCount s2 + 1 = cardCount s := by
        have := removeFromHand_cardCount s pid cid1 c1 hnd (by rw [hrm1])
        rwa [hrm1] at this
      have hnd2 : (s2.players.map Player.id).Nodup := by
        have := removeFromHand_ids s pid cid1
        rw [hrm1] at this
        simpa [this] using hnd
      have h2 : cardCount s3 + 1 = cardCount s2 := by
        have := removeFromHand_cardCount s2 pid cid2 c2 hnd2 (by rw [hrm2])
        rwa [hrm2] at this
      have h3 := applyDouble_cardCount s3 pid c1 c2
      simp only [playDoubleOp, hrm1, hrm2]
      omega

lemma playDoubleOp_ids (s : GameState) (pid cid1 cid2 : String) :
    (playDoubleOp s pid cid1 cid2).players.map Player.id
      = s.players.map Player.id := by
  rcases hrm1 : removeFromHand s pid cid1 with ⟨s2, oc1⟩
  cases oc1 with
  | none => simp [playDoubleOp, hrm1]
  | some c1 =>
    rcases hrm2 : removeFromHand s2 pid cid2 with ⟨s3, oc2⟩
    cases oc2 with
    | none => simp [playDoubleOp, hrm1, hrm2]
    | some c2 =>
      have h1 : s2.players.map Player.id = s.players.map Player.id := by
        have := removeFromHand_ids s pid cid1
        rwa [hrm1] at this
      have h2 : s3.players.map Player.id = s2.players.map Player.id := by
        have := removeFromHand_ids s2 pid cid2
        rwa [hrm2] at this
      simp only [playDoubleOp, hrm1, hrm2, applyDouble_players]
      rw [h2, h1]

/-- One engine operation preserves the card count and the id Nodup. -/
lemma step_preserve (shuffle : List Card → List Card)
    (hs : ∀ l, (shuffle l).length = l.length)
    (s s' : GameState) (hstep : Step shuffle s s')
    (hcc : cardCount s = 62)
    (hnd : (s.players.map Player.id).Nodup) :
    cardCount s' = 62 ∧ (s'.players.map Player.id).Nodup := by
  cases hstep with
  | play pid cid =>
    exact ⟨by rw [playCardOp_cardCount s pid cid hnd, hcc],
      by rw [playCardOp_ids]; exact hnd⟩
  | double pid cid1 cid2 =>
    exact ⟨by rw [playDoubleOp_cardCount s pid cid1 cid2 hnd, hcc],
      by rw [playDoubleOp_ids]; exact hnd⟩
  | draw pid count =>
    exact ⟨by rw [drawCards_cardCount shuffle hs s pid count, hcc],
      by rw [drawCards_ids]; exact hnd⟩
  | dragon sym =>
    exact ⟨by rw [dragon_cardCount, hcc], by rw [dragon_ids]; exact hnd⟩
  | peacock col =>
    exact ⟨by rw [peacock_cardCount, hcc], by rw [peacock_ids]; exact hnd⟩
  | advance k =>
    exact ⟨by rw [advanceTurn_cardCount, hcc], by rw [advanceTurn_ids]; exact hnd⟩

/-! `startRound` establishes the invariant. -/

lemma buildDeckOrdered_length : buildDeckOrdered.length = 62 := by decide

lemma sumHands_deal (deck : List Card) (np hS : Nat) (ps : List Player) :
    sumHands (ps.enum.map (fun jp =>
      { jp.2 with
          hand := dealHand deck np hS jp.1
          announcedLastCard := false }))
      = ps.length * hS := by
  unfold sumHands
  rw [List.map_map]
  have hmap : ps.enum.map ((fun p => p.hand.length) ∘ (fun jp : Nat × Player =>
      { jp.2 with
          hand := dealHand deck np hS jp.1
          announcedLastCard := false }))
      = ps.enum.map (fun _ => hS) := by
    apply List.map_congr_left
    intro jp _
    simp [dealHand]
  rw [hmap, sum_map_const_of hS (fun _ => hS) (fun _ => rfl) ps.enum,
    List.enum_length]

lemma findNonPowerIdxAux_ge (deck : List Card) :
    ∀ (fuel i : Nat), i ≤ findNonPowerIdxAux deck fuel i
  | 0, i => Nat.le_refl i
  | fuel + 1, i => by
    unfold findNonPowerIdxAux
    split_ifs with h1 h2
    · exact Nat.le_trans (Nat.le_succ i) (findNonPowerIdxAux_ge deck fuel (i + 1))
    · exact Nat.le_refl i
    · exact Nat.le_refl i

lemma findNonPowerIdxAux_le (deck : List Card) :
    ∀ (fuel i : Nat), findNonPowerIdxAux deck fuel i ≤ i + fuel
  | 0, i => by simp [findNonPowerIdxAux]
  | fuel + 1, i => by
    unfold findNonPowerIdxAux
    split_ifs with h1 h2
    · have := findNonPowerIdxAux_le deck fuel (i + 1)
      omega
    · omega
    · omega

lemma handSizeFor_mul_le (n : Nat) (h : n ≤ 9) : handSizeFor n * n ≤ 27 := by
  interval_cases n <;> decide

lemma startRound_cardCount (deck : List Card) (s : GameState)
    (h9 : s.players.length ≤ 9) (hd : deck.length = 62) :
    cardCount (startRound deck s) = 62 := by
  have hmul := handSizeFor_mul_le s.players.length h9
  have hidx : handSizeFor s.players.length * s.players.length < deck.length := by
    omega
  have htge : handSizeFor s.players.length * s.players.length
      ≤ findNonPowerIdx deck
        (handSizeFor s.players.length * s.players.length) :=
    findNonPowerIdxAux_ge deck _ _
  have htle : findNonPowerIdx deck
        (handSizeFor s.players.length * s.players.length)
      ≤ deck.length := by
    have h1 := findNonPowerIdxAux_le deck
      (deck.length - handSizeFor s.players.length * s.players.length)
      (handSizeFor s.players.length * s.players.length)
    unfold findNonPowerIdx
    omega
  simp only [cardCount, startRound]
  rw [sumHands_deal]
  simp only [List.length_append, List.length_take, List.length_drop,
    List.length_cons, List.length_nil]
  rw [Nat.mul_comm]
  split_ifs with hteq
  · simp only [Nat.sub_self, Nat.zero_min]
    omega
  · have hlt : findNonPowerIdx deck
        (handSizeFor s.players.length * s.players.length) < deck.length :=
      lt_of_le_of_ne htle hteq
    rw [Nat.min_eq_left (by omega)]
    omega

lemma startRound_ids (deck : List Card) (s : GameState) :
    (startRound deck s).players.map Player.id = s.players.map Player.id := by
  simp only [startRound]
  rw [List.map_map]
  show s.players.enum.map (fun jp => jp.2.id) = s.players.map Player.id
  rw [show (fun jp : Nat × Player => jp.2.id) = Player.id ∘ Prod.snd from rfl,
    ← List.map_map, List.enum_map_snd]

/-- C3: card-count conservation — from `startRound` on the built deck,
every state reachable by engine operations (card plays, double plays,
draws, declarations, turn advances) keeps
`sum(hand sizes) + |drawPile| + |discardPile| = 62`. -/
theorem cardCount_conserved (shuffle : List Card → List Card)
    (hs : ∀ l, (shuffle l).length = l.length)
    (s0 : GameState) (h9 : s0.players.length ≤ 9)
    (hnd : (s0.players.map Player.id).Nodup)
    (s : GameState)
    (hr : Reachable shuffle (startRound (buildDeck shuffle) s0) s) :
    cardCount s = 62 := by
  have hdeck : (buildDeck shuffle).length = 62 := by
    rw [buildDeck, hs]
    exact buildDeckOrdered_length
  have hbase : cardCount (startRound (buildDeck shuffle) s0) = 62 :=
    startRound_cardCount _ s0 h9 hdeck
  have hbasend :
      ((startRound (buildDeck shuffle) s0).players.map Player.id).Nodup := by
    rw [startRound_ids]
    exact hnd
  have hinv : cardCount s = 62 ∧ (s.players.map Player.id).Nodup := by
    induction hr with
    | refl => exact ⟨hbase, hbasend⟩
    | tail _ hstep ih => exact step_preserve shuffle hs _ _ hstep ih.1 ih.2
  exact hinv.1

/-- C3 witness: the freshly dealt two-player round holds 62 cards. -/
theorem cardCount_conserved_witness :
    cardCount (startRound (buildDeck (fun l => l)) c3s0) = 62 :=
  cardCount_conserved (fun l => l) (fun l => rfl) c3s0 (by decide) (by decide)
    (startRound (buildDeck (fun l => l)) c3s0) Relation.ReflTransGen.refl

/-! Lemmas for the `match_card` handler. -/

lemma find?_get_self (ps : List Player) (hnd : (ps.map Player.id).Nodup)
    (i : Nat) (hi : i < ps.length) :
    ps.find? (fun p => decide (p.id = (ps.get ⟨i, hi⟩).id))
      = some (ps.get ⟨i, hi⟩) := by
  apply find?_eq_get_of_first
  · intro k hk
    have hne : (ps.get ⟨k, lt_trans hk hi⟩).id ≠ (ps.get ⟨i, hi⟩).id := by
      intro h
      have h1 : (ps.map Player.id).get ⟨k, by simpa using lt_trans hk hi⟩
          = (ps.map Player.id).get ⟨i, by simpa using hi⟩ := by
        simpa [List.get_map] using h
      have h2 := (List.Nodup.get_inj_iff hnd).mp h1
      have h3 := congrArg Fin.val h2
      simp at h3
      omega
    simpa using hne
  · simp

lemma find?_map_id_pres (g : Player → Player) (hg : ∀ p, (g p).id = p.id)
    (y : String) :
    ∀ ps : List Player, (ps.map g).find? (fun p => decide (p.id = y))
      = (ps.find? (fun p => decide (p.id = y))).map g
  | [] => rfl
  | p :: ps => by
    by_cases h : p.id = y
    · rw [List.map_cons, List.find?_cons_of_pos _ (by simp [hg p, h]),
        List.find?_cons_of_pos _ (by simpa using h)]
      rfl
    · rw [List.map_cons, List.find?_cons_of_neg _ (by simp [hg p, h]),
        List.find?_cons_of_neg _ (by simpa using h)]
      exact find?_map_id_pres g hg y ps

lemma findIdx_map_id_pres (g : Player → Player) (hg : ∀ p, (g p).id = p.id)
    (y : String) :
    ∀ ps : List Player, (ps.map g).findIdx (fun p => decide (p.id = y))
      = ps.findIdx (fun p => decide (p.id = y))
  | [] => rfl
  | p :: ps => by
    simp [List.findIdx_cons, hg p, findIdx_map_id_pres g hg y ps]

lemma giveToFirst_findIdx (x y : String) (drawn : List Card) :
    ∀ ps : List Player,
      (giveToFirst x drawn ps).findIdx (fun p => decide (p.id = y))
        = ps.findIdx (fun p => decide (p.id = y))
  | [] => rfl
  | p :: ps => by
    by_cases h : p.id = x
    · rw [giveToFirst, if_pos h]
      simp [List.findIdx_cons]
    · rw [giveToFirst, if_neg h]
      simp [List.findIdx_cons, giveToFirst_findIdx x y drawn ps]

lemma drawCards_one (shuffle : List Card → List Card) (s : GameState)
    (pid : String) (p : Player) (c : Card) (rest : List Card)
    (hf : s.players.find? (fun q => decide (q.id = pid)) = some p)
    (hdp : s.drawPile = c :: rest) :
    drawCards shuffle s pid 1
      = { s with players := giveToFirst pid [c] s.players,
                 drawPile := rest } := by
  have hdl : drawLoop shuffle 1 s.drawPile s.playPile []
      = (rest, s.playPile, [c]) := by
    rw [hdp]
    simp [drawLoop]
  simp [drawCards, hf, hdl]

lemma checkRoundOver_pending (s : GameState) :
    (checkRoundOver s).pendingDrawCount = s.pendingDrawCount := by
  unfold checkRoundOver
  cases s.players.find? (fun p => p.hand.isEmpty) <;> rfl

lemma checkRoundOver_cpi (s : GameState) :
    (checkRoundOver s).currentPlayerIndex = s.currentPlayerIndex := by
  unfold checkRoundOver
  cases s.players.find? (fun p => p.hand.isEmpty) <;> rfl

lemma checkRoundOver_playPile (s : GameState) :
    (checkRoundOver s).playPile = s.playPile := by
  unfold checkRoundOver
  cases s.players.find? (fun p => p.hand.isEmpty) <;> rfl

lemma checkRoundOver_mwo (s : GameState) :
    (checkRoundOver s).matchWindowOpen = s.matchWindowOpen := by
  unfold checkRoundOver
  cases s.players.find? (fun p => p.hand.isEmpty) <;> rfl

lemma checkRoundOver_find_hand (s : GameState) (y : String) :
    ((checkRoundOver s).players.find? (fun p => decide (p.id = y))).map
        Player.hand
      = (s.players.find? (fun p => decide (p.id = y))).map Player.hand := by
  cases hf : s.players.find? (fun p => p.hand.isEmpty) with
  | none => simp [checkRoundOver, hf]
  | some w =>
    simp only [checkRoundOver, hf]
    rw [find?_map_id_pres (fun p =>
      { p with score := p.score +
          (if p.id = w.id then 0 else calcHandScore p.hand) })
      (fun p => rfl) y]
    cases s.players.find? (fun p => decide (p.id = y)) <;> rfl

/-- C1 counterexample: in `c1state` the matcher (player 1) matches the top
Wasp with their own Wasp.  The claim predicts no penalty draw and a +2
stack onto `pendingDrawCount` (2 becomes 4); the handler instead leaves
`pendingDrawCount` at 2 and makes the current player (player 0) draw one
penalty card. -/
theorem matchCard_wasp_cex :
    (matchCard (fun l => l) c1state "p1" "w1").map GameState.pendingDrawCount
        ≠ some (c1state.pendingDrawCount + 2)
    ∧ (matchCard (fun l => l) c1state "p1" "w1").map
          (fun s => (s.players.getD 0 playerDefault).hand.length)
        ≠ some (c1state.players.getD 0 playerDefault).hand.length := by
  refine ⟨?_, ?_⟩ <;> decide

set_option maxRecDepth 8000 in
/-- C1 (amended): accepting a match always gives the player whose turn it
is a 1-card penalty draw, regardless of the matched card's kind — a Wasp
included, with nothing added to `pendingDrawCount` — and then sets
`currentPlayerIndex` to the matcher's position and advances exactly one
step in the current direction, so play continues from the player after
the matcher; the matched card ends on top of the discard pile and the
match window closes. -/
theorem matchCard_always_penalizes
    (shuffle : List Card → List Card) (s : GameState)
    (matcherId cardId : String) (mp : Player) (top card : Card)
    (hwin : s.matchWindowOpen = true)
    (hi : s.currentPlayerIndex < s.players.length)
    (hnd : (s.players.map Player.id).Nodup)
    (hfind : s.players.find? (fun p => decide (p.id = matcherId)) = some mp)
    (hne : (s.players.get ⟨s.currentPlayerIndex, hi⟩).id ≠ matcherId)
    (htop : s.playPile.getLast? = some top)
    (hcard : mp.hand.find? (fun c => decide (c.id = cardId)) = some card)
    (hm : isMatch card top = true)
    (hdp : s.drawPile ≠ []) :
    ∃ s', matchCard shuffle s matcherId cardId = some s'
      ∧ s'.pendingDrawCount = s.pendingDrawCount
      ∧ s'.currentPlayerIndex = stepIdx s.direction s.players.length
          (s.players.findIdx (fun p => decide (p.id = matcherId)))
      ∧ s'.matchWindowOpen = false
      ∧ ((s'.players.find? (fun p =>
            decide (p.id = (s.players.get ⟨s.currentPlayerIndex, hi⟩).id))).map
            Player.hand)
          = some ((s.players.get ⟨s.currentPlayerIndex, hi⟩).hand
              ++ s.drawPile.take 1)
      ∧ s'.playPile.getLast? = some card := by
  obtain ⟨c, rest, hdpc⟩ : ∃ c rest, s.drawPile = c :: rest := by
    cases hdpcase : s.drawPile with
    | nil => exact absurd hdpcase hdp
    | cons c rest => exact ⟨c, rest, rfl⟩
  set cp := s.players.get ⟨s.currentPlayerIndex, hi⟩ with hcp
  have hgetD : s.players.getD s.currentPlayerIndex playerDefault = cp := by
    rw [List.getD_eq_getElem?_getD, List.getElem?_eq_getElem hi]
    rfl
  have hfcp : s.players.find? (fun p => decide (p.id = cp.id)) = some cp :=
    find?_get_self s.players hnd _ hi
  set s1 : GameState :=
    { s with players := giveToFirst cp.id [c] s.players, drawPile := rest }
    with hs1
  have h1 : drawCards shuffle s cp.id 1 = s1 :=
    drawCards_one shuffle s cp.id cp c rest hfcp hdpc
  have hfind1 : s1.players.find? (fun p => decide (p.id = matcherId))
      = some mp := by
    show (giveToFirst cp.id [c] s.players).find? _ = some mp
    rw [giveToFirst_find_other cp.id matcherId [c] (Ne.symm hne) s.players]
    exact hfind
  have hrm2 : (removeFromHand s1 matcherId cardId).2 = some card := by
    show ((s1.players.find? (fun p => decide (p.id = matcherId))).bind
      (fun p => p.hand.find? (fun d => decide (d.id = cardId)))) = some card
    rw [hfind1]
    simpa using hcard
  have hpair : removeFromHand s1 matcherId cardId
      = ((removeFromHand s1 matcherId cardId).1, some card) := by
    rw [← hrm2]
  have hs2players : (removeFromHand s1 matcherId cardId).1.players
      = s1.players.map (fun p => if p.id = matcherId
          then { p with hand := eraseFirstById cardId p.hand } else p) := rfl
  have hrmfun : ∀ p : Player, ((if p.id = matcherId
      then { p with hand := eraseFirstById cardId p.hand } else p) :
        Player).id = p.id := by
    intro p
    by_cases h : p.id = matcherId <;> simp [h]
  have hs1players : s1.players = giveToFirst cp.id [c] s.players := rfl
  have hidx2 : (removeFromHand s1 matcherId cardId).1.players.findIdx
        (fun p => decide (p.id = matcherId))
      = s.players.findIdx (fun p => decide (p.id = matcherId)) := by
    rw [hs2players, findIdx_map_id_pres _ hrmfun matcherId, hs1players]
    exact giveToFirst_findIdx cp.id matcherId [c] s.players
  have hlen2 : (removeFromHand s1 matcherId cardId).1.players.length
      = s.players.length := by
    rw [hs2players, List.length_map, hs1players]
    exact giveToFirst_length cp.id [c] s.players
  have hmc : matchCard shuffle s matcherId cardId
      = some (checkRoundOver (advanceTurn
          { (removeFromHand s1 matcherId cardId).1 with
              playPile := (removeFromHand s1 matcherId cardId).1.playPile
                ++ [card]
              currentPlayerIndex :=
                (removeFromHand s1 matcherId cardId).1.players.findIdx
                  (fun p => decide (p.id = matcherId))
              matchWindowOpen := false } 1)) := by
    simp only [matchCard, hfind, hwin, hgetD, htop, hcard, hm, hne,
      Bool.true_eq_false, if_false, decide_True, decide_False]
    rw [h1, hpair]
  refine ⟨_, hmc, ?_, ?_, ?_, ?_, ?_⟩
  · rw [checkRoundOver_pending]
    rfl
  · rw [checkRoundOver_cpi]
    show stepIdx s.direction
        ((removeFromHand s1 matcherId cardId).1.players.length)
        ((removeFromHand s1 matcherId cardId).1.players.findIdx
          (fun p => decide (p.id = matcherId)))
      = stepIdx s.direction s.players.length
        (s.players.findIdx (fun p => decide (p.id = matcherId)))
    rw [hidx2, hlen2]
  · rw [checkRoundOver_mwo]
    rfl
  · rw [checkRoundOver_find_hand]
    show (((removeFromHand s1 matcherId cardId).1.players.find?
        (fun p => decide (p.id = cp.id))).map Player.hand) = _
    rw [hs2players, find?_map_id_pres _ hrmfun, hs1players]
    have hf1cp : (giveToFirst cp.id [c] s.players).find?
          (fun p => decide (p.id = cp.id))
        = some { cp with hand := cp.hand ++ [c] } := by
      rw [giveToFirst_find_same cp.id [c] s.players, hfcp]
      rfl
    rw [hf1cp]
    simp only [Option.map_map, Option.map_some]
    rw [hdpc]
    have hcpne : ({ cp with hand := cp.hand ++ [c] } : Player).id
        ≠ matcherId := hne
    simp [Function.comp, hcpne]
  · rw [checkRoundOver_playPile]
    show ((removeFromHand s1 matcherId cardId).1.playPile
        ++ [card]).getLast? = some card
    simp

/-- C1 witness: the amended match-resolution theorem evaluated on
`c1state` — player 1 matches the top Wasp; player 0 keeps the penalty
draw, `pendingDrawCount` stays put, play continues after the matcher. -/
theorem matchCard_always_penalizes_witness :
    ∃ s', matchCard (fun l => l) c1state "p1" "w1" = some s'
      ∧ s'.pendingDrawCount = c1state.pendingDrawCount
      ∧ s'.currentPlayerIndex = stepIdx c1state.direction
          c1state.players.length
          (c1state.players.findIdx (fun p => decide (p.id = "p1")))
      ∧ s'.matchWindowOpen = false
      ∧ ((s'.players.find? (fun p => decide
            (p.id = (c1state.players.get
              ⟨c1state.currentPlayerIndex, by decide⟩).id))).map Player.hand)
          = some ((c1state.players.get
              ⟨c1state.currentPlayerIndex, by decide⟩).hand
              ++ c1state.drawPile.take 1)
      ∧ s'.playPile.getLast? = some (mkCommand "w1" .yellow .wasp) :=
  matchCard_always_penalizes (fun l => l) c1state "p1" "w1" c1matcher
    (mkCommand "t0" .yellow .wasp) (mkCommand "w1" .yellow .wasp)
    rfl (by decide) (by decide) (by decide) (by decide) rfl (by decide)
    (by decide) (by decide)

end Zar
